import Mathlib

/-
  Shallow embedding of the cart / checkout core of the E-Commerce-Project
  repository (src/orders/views.py, src/orders/models.py, src/products/models.py).

  Modelling conventions:
  * Python `Decimal` monetary values are exact rationals (`ℚ`).
  * The session cart dict `{"<pid>": qty}` is an insertion-ordered association
    list `List (String × Option Int)`; a value `none` stands for a session value
    on which Python `int(...)` raises (`ValueError`/`TypeError`), `some q` for a
    value that `int(...)` converts to `q`.
  * Database rows are records in lists; `select_for_update` plus the
    single-transaction discipline make the checkout body sequential, so it is
    modelled as a pure state transformer.
  * `datetime.fromisoformat` is an external library routine; the embedding
    takes it as an explicit parameter `parseIso : String → Option ℚ` (absolute
    time in seconds), and `timezone.now().isoformat()` as a parameter `nowIso`.
-/

namespace ECom

/-! ## Money (`_quantize_currency`, Decimal ROUND_HALF_UP at 2 places) -/

/-- Number of cents obtained by rounding `v` half-away-from-zero (Python
`decimal.ROUND_HALF_UP`) at 2 fractional digits. -/
def halfUpCents (v : ℚ) : ℤ :=
  if 0 ≤ v then ⌊v * 100 + 1 / 2⌋ else -⌊(-v) * 100 + 1 / 2⌋

/-- Embedding of `_quantize_currency` from src/orders/views.py (identical to
`OrderItem.line_total` rounding in src/orders/models.py):
`value.quantize(Decimal("0.01"), rounding=ROUND_HALF_UP)`. -/
def quantize_currency (v : ℚ) : ℚ := (halfUpCents v : ℚ) / 100

/-! ## Catalog (`products.models.Product`) -/

/-- The fields of `products.models.Product` that the cart/checkout core reads
or writes. `stock` is carried as `Int` so that the effect of the checkout
decrement is observable in the model. -/
structure Product where
  id : Nat
  name : String
  price : ℚ
  stock : Int
  is_active : Bool
  owner : Nat
deriving DecidableEq

/-- A catalog is the product table. -/
abbrev Catalog := List Product

/-- Lookup used by `Product.objects.filter(id__in=..., is_active=True)` /
`get_object_or_404(Product, pk=..., is_active=True)` for a single id. -/
def findActive (catalog : Catalog) (pid : Int) : Option Product :=
  catalog.find? (fun p => (p.id : Int) == pid && p.is_active)

/-- The dict `{p.id: p for p in Product.objects.filter(id__in=ids, is_active=True)}`
as a lookup function: defined only on ids in `ids`. -/
def productMapIn (catalog : Catalog) (ids : List Int) (pid : Int) : Option Product :=
  if ids.contains pid then findActive catalog pid else none

/-- `product.stock -= qty; product.save(update_fields=["stock"])` applied to
the row(s) with id `pid`. -/
def decStock (catalog : Catalog) (pid : Int) (qty : Int) : Catalog :=
  catalog.map (fun p => if (p.id : Int) == pid then { p with stock := p.stock - qty } else p)

/-- Stock of the active row with id `pid`, if any (read-side helper for
stating theorems). -/
def stockAct (catalog : Catalog) (pid : Int) : Option Int :=
  (findActive catalog pid).map Product.stock

/-! ## Session cart -/

/-- The session cart `session["cart"]`, an insertion-ordered dict. -/
abbrev Cart := List (String × Option Int)

/-- Value of a nonempty all-decimal-digit character list (most significant
digit first); `none` as soon as a non-digit appears. -/
def digitsToNat? (cs : List Char) : Option Nat :=
  cs.foldl
    (fun acc c =>
      match acc with
      | none => none
      | some a =>
        if 48 ≤ c.toNat ∧ c.toNat ≤ 57 then some (a * 10 + (c.toNat - 48))
        else none)
    (some 0)

/-- Python `str.isdigit`-guarded `int(s)` for a nonnegative decimal string:
`some n` exactly when `s` is nonempty and all digits. -/
def pyStrNat? (s : String) : Option Nat :=
  if s.data = [] then none else digitsToNat? s.data

/-- Python `int(s)` on the cart-key strings of this app: an optional minus
sign (codepoint 45) followed by decimal digits (the wire format for cart keys
is a plain decimal-string product id, cf. `_get_cart`'s docstring). -/
def pyInt? (s : String) : Option Int :=
  match pyStrNat? s with
  | some n => some (Int.ofNat n)
  | none =>
    match s.data with
    | c :: rest =>
        if c.toNat = 45 then
          if rest = [] then none
          else (digitsToNat? rest).map (fun n => -(Int.ofNat n))
        else none
    | [] => none

/-- Dict key lookup: `cart.get(k)` (`none` = key absent). -/
def lookupKey (c : Cart) (k : String) : Option (Option Int) :=
  (c.find? (fun e => e.1 == k)).map Prod.snd

/-- Dict assignment `cart[k] = v`: replaces the (unique) existing entry in
place if the key is present, appends at the end otherwise (Python dicts
preserve insertion order). -/
def setEntry : Cart → String → Int → Cart
  | [], k, v => [(k, some v)]
  | e :: t, k, v => if e.1 == k then (k, some v) :: t else e :: setEntry t k v

/-- Dict deletion `del cart[k]`. -/
def eraseEntry (c : Cart) (k : String) : Cart :=
  c.filter (fun e => e.1 != k)

/-- `int(cart.get(pid, 0))` guarded by `try/except` and `max(0, ...)` as in
`cart_add`/`cart_increment`/`cart_decrement`. -/
def currentQty (c : Cart) (k : String) : Int :=
  max 0 (((lookupKey c k).getD (some 0)).getD 0)

/-- The session state the cart core touches. -/
structure Session where
  cart : Cart
  cart_created_at : Option String
deriving DecidableEq

/-- Timestamp side effect of `_get_cart`: initialize `cart_created_at` when it
is missing (the cart list itself always exists in the model). -/
def touchCreated (nowIso : String) (s : Session) : Session :=
  match s.cart_created_at with
  | none => { s with cart_created_at := some nowIso }
  | some _ => s

/-- Embedding of `_is_cart_expired`: `False` on a missing or falsy (empty)
timestamp, `False` when `fromisoformat` raises, otherwise
`now > created + 24h`. -/
def is_cart_expired (parseIso : String → Option ℚ) (now : ℚ) (s : Session) : Bool :=
  match s.cart_created_at with
  | none => false
  | some t =>
    if t = ("") then false
    else
      match parseIso t with
      | none => false
      | some created => decide (now > created + 24 * 3600)

/-! ## `_validate_and_clean_cart` -/

/-- `[int(pid) for pid in cart.keys() if pid.isdigit()]`. -/
def cartIds (cart : Cart) : List Int :=
  (cart.map Prod.fst).filterMap (fun k => (pyStrNat? k).map Int.ofNat)

/-- Body of the cleaning loop of `_validate_and_clean_cart`, processing one
cart entry against the prefetched product map; the accumulator is
`(cleaned_cart, removed_items)`. -/
def cleanStep (pm : Int → Option Product) (acc : Cart × List String)
    (e : String × Option Int) : Cart × List String :=
  match e.2 with
  | none => (acc.1, acc.2 ++ [e.1])
  | some qty =>
    match pyInt? e.1 with
    | none => (acc.1, acc.2 ++ [e.1])
    | some pid =>
      match pm pid with
      | none => (acc.1, acc.2 ++ [e.1])
      | some product =>
        if qty ≤ 0 then (acc.1, acc.2 ++ [e.1])
        else if qty > product.stock then
          if product.stock > 0 then (acc.1 ++ [(e.1, some product.stock)], acc.2)
          else (acc.1, acc.2 ++ [e.1])
        else (acc.1 ++ [(e.1, some qty)], acc.2)

/-- Return value `(cleaned_cart, removed_items)` of `_validate_and_clean_cart`
(src/orders/views.py lines 65–126), before the session write-back. -/
def validate_and_clean_core (catalog : Catalog) (cart : Cart) : Cart × List String :=
  if cart.isEmpty then (cart, [])
  else
    let ids := cartIds cart
    if ids.isEmpty then ([], [])
    else cart.foldl (cleanStep (productMapIn catalog ids)) ([], [])

/-- The conditional session write-back at the end of `_validate_and_clean_cart`:
the session cart is replaced by the cleaned cart only when the length changed
or some key disappeared (note: a pure quantity clamp does not trigger it).
The no-digit-keys early branch always clears the session cart. -/
def cleanSessionCart (catalog : Catalog) (cart : Cart) : Cart :=
  if cart.isEmpty then cart
  else if (cartIds cart).isEmpty then []
  else
    let cleaned := (validate_and_clean_core catalog cart).1
    if cleaned.length != cart.length
        || cart.any (fun e => !((cleaned.map Prod.fst).contains e.1)) then cleaned
    else cart

/-- Full effect of `_validate_and_clean_cart` on the session (including the
`_get_cart` timestamp initialization), together with its return value. -/
def validate_and_clean_session (catalog : Catalog) (nowIso : String) (s : Session) :
    Session × Cart × List String :=
  let s1 := touchCreated nowIso s
  let r := validate_and_clean_core catalog s1.cart
  ({ s1 with cart := cleanSessionCart catalog s1.cart }, r)

/-! ## Cart mutation operations (`cart_add`, `cart_update`, `cart_increment`,
`cart_decrement`, `cart_remove`) -/

/-- Observable outcome of one cart-mutation view (HTTP status / flashed
message class); AJAX and non-AJAX branches differ only in response framing,
not in session state, and are not distinguished. -/
inductive CartOpResult where
  | notFound
  | notInCart
  | selfPurchase
  | soldOut
  | soldOutRemoved
  | insufficientStock
  | invalidQuantity
  | ok (warning : Bool)
deriving DecidableEq

/-- Outcomes flashed as errors / returned as 4xx. -/
def CartOpResult.isFailure : CartOpResult → Bool
  | .ok _ => false
  | _ => true

/-- `request.user.is_authenticated and product.owner == request.user`
(`user = none` is the anonymous user). -/
def userOwns (user : Option Nat) (p : Product) : Bool :=
  match user with
  | some uid => p.owner == uid
  | none => false

/-- Embedding of `cart_add` (src/orders/views.py lines 214–294).
`qtyPost` is the POST quantity after `int(...)` (`none` when it raises, in
which case the view defaults to 1). -/
def cart_add (parseIso : String → Option ℚ) (now : ℚ) (nowIso : String)
    (user : Option Nat) (product_id : Nat) (qtyPost : Option Int)
    (catalog : Catalog) (sess : Session) : Session × CartOpResult :=
  let sess :=
    if is_cart_expired parseIso now sess then
      { cart := [], cart_created_at := some nowIso }
    else sess
  match findActive catalog (product_id : Int) with
  | none => (sess, .notFound)
  | some product =>
    if userOwns user product then (sess, .selfPurchase)
    else if product.stock ≤ 0 then (sess, .soldOut)
    else
      let qty_to_add := qtyPost.getD 1
      let qty_to_add := if qty_to_add ≤ 0 then 1 else qty_to_add
      let sess := touchCreated nowIso sess
      let pid := toString product_id
      let new_qty := currentQty sess.cart pid + qty_to_add
      if new_qty ≤ 0 then (sess, .invalidQuantity)
      else if new_qty > product.stock then (sess, .insufficientStock)
      else ({ sess with cart := setEntry sess.cart pid new_qty }, .ok false)

/-- Embedding of `cart_update` (src/orders/views.py lines 297–343). Note the
source quirks mirrored here: no expiry check; the `qty <= 0` removal happens
before the product is even fetched; and in the sold-out branch the deleted
line is re-added by the unconditional `cart[pid] = qty` that follows. -/
def cart_update (nowIso : String) (user : Option Nat) (product_id : Nat)
    (qtyPost : Option Int) (catalog : Catalog) (sess : Session) :
    Session × CartOpResult :=
  let sess := touchCreated nowIso sess
  let pid := toString product_id
  if (lookupKey sess.cart pid).isNone then (sess, .ok false)
  else
    let qty := qtyPost.getD 1
    if qty ≤ 0 then ({ sess with cart := eraseEntry sess.cart pid }, .ok false)
    else
      match findActive catalog (product_id : Int) with
      | none => (sess, .notFound)
      | some product =>
        if userOwns user product then
          ({ sess with cart := eraseEntry sess.cart pid }, .selfPurchase)
        else if qty > product.stock then
          if product.stock ≤ 0 then
            ({ sess with cart := setEntry (eraseEntry sess.cart pid) pid qty },
             .soldOutRemoved)
          else
            ({ sess with cart := setEntry sess.cart pid product.stock }, .ok true)
        else ({ sess with cart := setEntry sess.cart pid qty }, .ok false)

/-- Embedding of `cart_increment` (src/orders/views.py lines 376–441). -/
def cart_increment (nowIso : String) (user : Option Nat) (product_id : Nat)
    (catalog : Catalog) (sess : Session) : Session × CartOpResult :=
  let sess := touchCreated nowIso sess
  let pid := toString product_id
  if (lookupKey sess.cart pid).isNone then (sess, .notInCart)
  else
    match findActive catalog (product_id : Int) with
    | none => (sess, .notFound)
    | some product =>
      if userOwns user product then
        ({ sess with cart := eraseEntry sess.cart pid }, .selfPurchase)
      else
        let new_qty := currentQty sess.cart pid + 1
        if new_qty > product.stock then (sess, .insufficientStock)
        else ({ sess with cart := setEntry sess.cart pid new_qty }, .ok false)

/-- Embedding of `cart_decrement` (src/orders/views.py lines 444–501): note
that the source performs no ownership validation here. -/
def cart_decrement (nowIso : String) (_user : Option Nat) (product_id : Nat)
    (catalog : Catalog) (sess : Session) : Session × CartOpResult :=
  let sess := touchCreated nowIso sess
  let pid := toString product_id
  if (lookupKey sess.cart pid).isNone then (sess, .notInCart)
  else
    match findActive catalog (product_id : Int) with
    | none => (sess, .notFound)
    | some _product =>
      let new_qty := max 0 (currentQty sess.cart pid - 1)
      if new_qty = 0 then ({ sess with cart := eraseEntry sess.cart pid }, .ok false)
      else ({ sess with cart := setEntry sess.cart pid new_qty }, .ok false)

/-- Embedding of `cart_remove` (src/orders/views.py lines 346–373). -/
def cart_remove (nowIso : String) (product_id : Nat) (sess : Session) :
    Session × CartOpResult :=
  let sess := touchCreated nowIso sess
  let pid := toString product_id
  if (lookupKey sess.cart pid).isSome then
    ({ sess with cart := eraseEntry sess.cart pid }, .ok false)
  else (sess, .notInCart)

/-! ## Checkout (`checkout`, src/orders/views.py lines 504–648) -/

/-- One collected checkout validation violation. -/
inductive VError where
  | invalidQuantity (pid_str : String)
  | nonPositiveQuantity (pid_str : String)
  | unavailable (pid_str : String)
  | selfPurchase (product_name : String)
  | soldOut (product_name : String)
  | insufficientStock (product_name : String) (stock qty : Int)
deriving DecidableEq

/-- The per-line validation of the checkout POST loop (lines 554–588), in
source order: quantity parse, positivity, availability in the locked map,
self-purchase, sold-out, insufficient stock. Returns the at-most-one error
the loop appends for this line. -/
def checkout_line_error (user : Nat) (pm : Int → Option Product)
    (e : String × Option Int) : Option VError :=
  match e.2 with
  | none => some (.invalidQuantity e.1)
  | some qty =>
    match pyInt? e.1 with
    | none => some (.invalidQuantity e.1)
    | some pid =>
      if qty ≤ 0 then some (.nonPositiveQuantity e.1)
      else
        match pm pid with
        | none => some (.unavailable e.1)
        | some product =>
          if product.owner == user then some (.selfPurchase product.name)
          else if product.stock ≤ 0 then some (.soldOut product.name)
          else if product.stock < qty then
            some (.insufficientStock product.name product.stock qty)
          else none

/-- One `errors.append(...)`-or-skip step of the validation loop. -/
def errStep (user : Nat) (pm : Int → Option Product) (acc : List VError)
    (e : String × Option Int) : List VError :=
  match checkout_line_error user pm e with
  | some err => acc ++ [err]
  | none => acc

/-- The `errors` list built by the validation loop: `errors = []` then
`errors.append(...)` per offending line, visiting every line. -/
def checkout_errors (user : Nat) (pm : Int → Option Product) (cleaned : Cart) :
    List VError :=
  cleaned.foldl (errStep user pm) []

/-- The fields of `orders.models.OrderItem` fixed at creation time. -/
structure OrderItemRec where
  productId : Int
  quantity : Int
  price_at_purchase : ℚ
  status : String
deriving DecidableEq

/-- The fields of `orders.models.Order` as visible after the checkout
transaction commits. -/
structure OrderRec where
  user : Nat
  status : String
  is_paid : Bool
  total_amount : ℚ
  items : List OrderItemRec
deriving DecidableEq

/-- The mutable state the checkout transaction touches: the product table,
the caller's session, and the order table. -/
structure St where
  catalog : Catalog
  session : Session
  orders : List OrderRec
deriving DecidableEq

/-- Placeholder for the unreachable `locked_map[pid]` miss in the commit loop
(validation has already guaranteed a hit). -/
def dummyProduct : Product :=
  { id := 0, name := "", price := 0, stock := 0, is_active := false, owner := 0 }

/-- One iteration of the commit loop (lines 605–619): look the product up in
the locked map (whose objects reflect in-memory decrements from earlier
iterations, hence the evolving catalog), create the `OrderItem`, accumulate
the rounded line total, decrement and save the stock. -/
def commitStep (ids : List Int) (acc : List OrderItemRec × ℚ × Catalog)
    (e : String × Option Int) : List OrderItemRec × ℚ × Catalog :=
  let pid := (pyInt? e.1).getD 0
  let qty := e.2.getD 0
  let product := (productMapIn acc.2.2 ids pid).getD dummyProduct
  let line_total := quantize_currency (product.price * (qty : ℚ))
  (acc.1 ++ [{ productId := pid, quantity := qty,
               price_at_purchase := product.price, status := "pending" }],
   (acc.2.1 + line_total, decStock acc.2.2 pid qty))

/-- The whole committing phase (lines 597–624): order creation, the loop over
the cleaned cart, and the final `total_amount`/`status`/`is_paid` save. -/
def commit_lines (user : Nat) (ids : List Int) (catalog : Catalog)
    (cleaned : Cart) : OrderRec × Catalog :=
  let r := cleaned.foldl (commitStep ids) ([], (0, catalog))
  ({ user := user, status := "paid", is_paid := true,
     total_amount := quantize_currency r.2.1, items := r.1 }, r.2.2)

/-- Observable outcome of one `checkout` request. -/
inductive CheckoutOutcome where
  | expired
  | emptyCart
  | rendered
  | aborted (errors : List VError)
  | committed (order : OrderRec)
deriving DecidableEq

/-- Embedding of the `checkout` view (src/orders/views.py lines 504–648):
expiry check, cart sanitation, then — on POST, inside one transaction over the
locked rows — collect all validation errors, and either abort (no writes) or
commit (order + items created, stock decremented, cart cleared). `isPost`
distinguishes the POST submission from the GET rendering of the page. -/
def checkout (parseIso : String → Option ℚ) (now : ℚ) (nowIso : String)
    (user : Nat) (isPost : Bool) (st : St) : St × CheckoutOutcome :=
  if is_cart_expired parseIso now st.session then
    ({ st with session := { cart := [], cart_created_at := some nowIso } }, .expired)
  else
    let vr := validate_and_clean_session st.catalog nowIso st.session
    let sess := vr.1
    let cleaned := vr.2.1
    let st1 : St := { st with session := sess }
    if cleaned.isEmpty then (st1, .emptyCart)
    else
      let ids := (cleaned.map Prod.fst).filterMap pyInt?
      if isPost then
        let pm := productMapIn st1.catalog ids
        let errors := checkout_errors user pm cleaned
        if errors.isEmpty then
          let r := commit_lines user ids st1.catalog cleaned
          ({ catalog := r.2,
             session := { sess with cart := [] },
             orders := st1.orders ++ [r.1] }, .committed r.1)
        else (st1, .aborted errors)
      else (st1, .rendered)

/-! ## Shared fixtures for concrete witnesses and counterexamples -/

/-- A `fromisoformat` stub that rejects every string (its value is irrelevant
to the scenarios below, whose timestamps are absent or unparseable). -/
def exNoParse : String → Option ℚ := fun _ => none

/-- Active product id 1, price 5, stock 3, owned by user 42. -/
def exOwned : Product :=
  { id := 1, name := "A", price := 5, stock := 3, is_active := true, owner := 42 }

/-- Inactive product id 2. -/
def exInactive : Product :=
  { id := 2, name := "B", price := 4, stock := 5, is_active := false, owner := 7 }

/-- Active product id 1, price 5, stock 10, owned by user 7. -/
def exPlain : Product :=
  { id := 1, name := "A", price := 5, stock := 10, is_active := true, owner := 7 }

/-- A state whose cart holds a line for the user's own product (id 1) and a
line for an inactive product (id 2): checkout sanitation drops the second
line, validation then aborts on the first. -/
def exStAbort : St :=
  { catalog := [exOwned, exInactive],
    session := { cart := [(("1"), some 2), (("2"), some 1)],
                 cart_created_at := none },
    orders := [] }

/-! ## Basic lemmas about the embedding -/

theorem touchCreated_cart (nowIso : String) (s : Session) :
    (touchCreated nowIso s).cart = s.cart := by
  unfold touchCreated
  cases s.cart_created_at <;> rfl

theorem lookupKey_erase (c : Cart) (k : String) :
    lookupKey (eraseEntry c k) k = none := by
  unfold lookupKey eraseEntry
  rw [List.find?_eq_none.mpr]
  · rfl
  · intro e he
    have := (List.mem_filter.mp he).2
    simp only [bne_iff_ne, ne_eq] at this
    simp [this]

theorem lookupKey_set (c : Cart) (k : String) (v : Int) :
    lookupKey (setEntry c k v) k = some (some v) := by
  induction c with
  | nil => simp [setEntry, lookupKey]
  | cons e t ih =>
    by_cases h : (e.1 == k) = true
    · simp [setEntry, lookupKey, List.find?_cons, h]
    · simp only [setEntry, h, if_false]
      simpa [lookupKey, List.find?_cons, h] using ih

/-! ## Claim C8: round-half-up currency rounding -/

/-- Bounds for the nonnegative branch of `halfUpCents`. -/
theorem halfUpCents_bounds (y : ℚ) (hy : 0 ≤ y) :
    -(1 / 200) ≤ y - (⌊y * 100 + 1 / 2⌋ : ℚ) / 100 ∧
      y - (⌊y * 100 + 1 / 2⌋ : ℚ) / 100 < 1 / 200 ∧
      (0 : ℚ) ≤ (⌊y * 100 + 1 / 2⌋ : ℚ) := by
  have h1 : ((⌊y * 100 + 1 / 2⌋ : ℤ) : ℚ) ≤ y * 100 + 1 / 2 := Int.floor_le _
  have h2 : y * 100 + 1 / 2 < (⌊y * 100 + 1 / 2⌋ : ℚ) + 1 := Int.lt_floor_add_one _
  have h3 : (0 : ℤ) ≤ ⌊y * 100 + 1 / 2⌋ := Int.floor_nonneg.mpr (by linarith)
  refine ⟨by linarith, by linarith, by exact_mod_cast h3⟩

/-- C8. `_quantize_currency` rounds to exactly 2 fractional digits
(the result is an integer number of cents), the result is within half a cent
of the input, and an exact half-cent tie is resolved away from zero
(round-half-up, not banker's rounding); in particular 9.995 rounds to 10.00. -/
theorem quantize_currency_half_up :
    (∀ x : ℚ,
      (∃ n : ℤ, quantize_currency x = (n : ℚ) / 100) ∧
      |x - quantize_currency x| ≤ 1 / 200 ∧
      (|x - quantize_currency x| = 1 / 200 → |x| ≤ |quantize_currency x|)) ∧
    quantize_currency (9995 / 1000) = 10 := by
  constructor
  · intro x
    by_cases hx : 0 ≤ x
    · have hb := halfUpCents_bounds x hx
      have hq : quantize_currency x = (⌊x * 100 + 1 / 2⌋ : ℚ) / 100 := by
        unfold quantize_currency halfUpCents
        rw [if_pos hx]
      constructor
      · exact ⟨⌊x * 100 + 1 / 2⌋, hq⟩
      constructor
      · rw [hq, abs_le]
        constructor <;> linarith [hb.1, hb.2.1]
      · intro htie
        rw [hq] at htie ⊢
        have hqnn : 0 ≤ (⌊x * 100 + 1 / 2⌋ : ℚ) / 100 := by
          have := hb.2.2; positivity
        have hcase : x - (⌊x * 100 + 1 / 2⌋ : ℚ) / 100 = -(1 / 200) := by
          rcases abs_eq (by norm_num : (0 : ℚ) ≤ 1 / 200) |>.mp htie with h | h
          · exact absurd h (by linarith [hb.2.1])
          · exact h
        rw [abs_of_nonneg hx, abs_of_nonneg hqnn]
        linarith
    · push_neg at hx
      have hy : 0 ≤ -x := by linarith
      have hb := halfUpCents_bounds (-x) hy
      have hq : quantize_currency x = -((⌊(-x) * 100 + 1 / 2⌋ : ℚ) / 100) := by
        unfold quantize_currency halfUpCents
        rw [if_neg (by linarith)]
        push_cast
        ring
      constructor
      · exact ⟨-⌊(-x) * 100 + 1 / 2⌋, by rw [hq]; push_cast; ring⟩
      constructor
      · rw [hq, abs_le]
        constructor <;> linarith [hb.1, hb.2.1]
      · intro htie
        rw [hq] at htie ⊢
        have habs : |x + (⌊(-x) * 100 + 1 / 2⌋ : ℚ) / 100| = 1 / 200 := by
          rw [← htie]; congr 1; ring
        have hqnn : 0 ≤ (⌊(-x) * 100 + 1 / 2⌋ : ℚ) / 100 := by
          have := hb.2.2; positivity
        have hcase : x + (⌊(-x) * 100 + 1 / 2⌋ : ℚ) / 100 = 1 / 200 := by
          rcases abs_eq (by norm_num : (0 : ℚ) ≤ 1 / 200) |>.mp habs with h | h
          · exact h
          · exact absurd h (by nlinarith [hb.2.1])
        rw [abs_of_neg hx, abs_of_nonpos (by linarith : -((⌊(-x) * 100 + 1 / 2⌋ : ℚ) / 100) ≤ 0)]
        linarith
  · have harg : (9995 / 1000 : ℚ) * 100 + 1 / 2 = ((1000 : ℤ) : ℚ) := by norm_num
    unfold quantize_currency halfUpCents
    rw [if_pos (by norm_num), harg, Int.floor_intCast]
    norm_num

/-- C8 witness: at the concrete tie `x = 0.005` the rounded value is at least
as large in magnitude as the input (the tie went up, to one cent). -/
theorem quantize_currency_half_up_witness :
    |(1 / 200 : ℚ)| ≤ |quantize_currency (1 / 200)| :=
  (quantize_currency_half_up.1 (1 / 200)).2.2 (by
    have harg : (1 / 200 : ℚ) * 100 + 1 / 2 = ((1 : ℤ) : ℚ) := by norm_num
    unfold quantize_currency halfUpCents
    rw [if_pos (by norm_num), harg, Int.floor_intCast]
    rw [abs_of_nonpos (by norm_num)]
    norm_num)

/-! ## Claim C10: bad cart timestamps are never treated as expired -/

/-- C10. When `cart_created_at` is missing, empty, or rejected by the ISO-8601
parser, `_is_cart_expired` returns `False`, and consequently the checkout view
never takes its cart-clearing expiry branch on such a session. -/
theorem is_cart_expired_bad_timestamp (parseIso : String → Option ℚ) (now : ℚ)
    (s : Session)
    (h : s.cart_created_at = none ∨
      ∃ t, s.cart_created_at = some t ∧ (t = ("") ∨ parseIso t = none)) :
    is_cart_expired parseIso now s = false ∧
    ∀ (nowIso : String) (user : Nat) (isPost : Bool) (st : St),
      st.session = s → (checkout parseIso now nowIso user isPost st).2 ≠ .expired := by
  have hfalse : is_cart_expired parseIso now s = false := by
    rcases h with h | ⟨t, ht, hcase⟩
    · simp [is_cart_expired, h]
    · by_cases he : t = ("")
      · simp [is_cart_expired, ht, he]
      · rcases hcase with hc | hc
        · exact absurd hc he
        · simp [is_cart_expired, ht, he, hc]
  refine ⟨hfalse, ?_⟩
  intro nowIso user isPost st hst
  unfold checkout
  rw [hst, hfalse]
  simp only [Bool.false_eq_true, if_false]
  split
  · simp
  · split
    · split
      · simp
      · simp
    · simp

/-- C10 witness: a session whose timestamp no parser accepts is not expired. -/
theorem is_cart_expired_bad_timestamp_witness :
    is_cart_expired exNoParse 0
      { cart := [], cart_created_at := some ("garbage") } = false :=
  (is_cart_expired_bad_timestamp exNoParse 0
    { cart := [], cart_created_at := some ("garbage") }
    (Or.inr ⟨("garbage"), rfl, Or.inr rfl⟩)).1

/-! ## Claim C6: self-purchase eviction across the cart mutations -/

/-- C6 (amended). For `cart_add`, `cart_update`, `cart_increment` and
`cart_remove`, an operation on a product the acting user owns either fails or
ends with no cart line for that product. (`cart_decrement` is excluded: the
source performs no ownership check there, see the counterexample.) -/
theorem cart_ops_owned_fail_or_evict (parseIso : String → Option ℚ) (now : ℚ)
    (nowIso : String) (uid : Nat) (product_id : Nat) (qtyPost : Option Int)
    (catalog : Catalog) (sess : Session) (p : Product)
    (hp : findActive catalog (product_id : Int) = some p) (hown : p.owner = uid) :
    ((cart_add parseIso now nowIso (some uid) product_id qtyPost catalog sess).2.isFailure = true ∨
      lookupKey (cart_add parseIso now nowIso (some uid) product_id qtyPost catalog sess).1.cart
        (toString product_id) = none) ∧
    ((cart_update nowIso (some uid) product_id qtyPost catalog sess).2.isFailure = true ∨
      lookupKey (cart_update nowIso (some uid) product_id qtyPost catalog sess).1.cart
        (toString product_id) = none) ∧
    ((cart_increment nowIso (some uid) product_id catalog sess).2.isFailure = true ∨
      lookupKey (cart_increment nowIso (some uid) product_id catalog sess).1.cart
        (toString product_id) = none) ∧
    ((cart_remove nowIso product_id sess).2.isFailure = true ∨
      lookupKey (cart_remove nowIso product_id sess).1.cart
        (toString product_id) = none) := by
  have howns : userOwns (some uid) p = true := by
    simp [userOwns, hown]
  refine ⟨?_, ?_, ?_, ?_⟩
  · left
    simp only [cart_add, hp, howns, if_true]
    rfl
  · rcases hl : lookupKey sess.cart (toString product_id) with _ | v
    · right
      simp [cart_update, touchCreated_cart, hl]
    · by_cases hq : qtyPost.getD 1 ≤ 0
      · right
        simp [cart_update, touchCreated_cart, hl, hq, lookupKey_erase]
      · right
        simp [cart_update, touchCreated_cart, hl, hq, hp, howns, lookupKey_erase]
  · rcases hl : lookupKey sess.cart (toString product_id) with _ | v
    · left
      simp [cart_increment, touchCreated_cart, hl, CartOpResult.isFailure]
    · right
      simp [cart_increment, touchCreated_cart, hl, hp, howns, lookupKey_erase]
  · rcases hl : lookupKey sess.cart (toString product_id) with _ | v
    · left
      simp [cart_remove, touchCreated_cart, hl, CartOpResult.isFailure]
    · right
      simp [cart_remove, touchCreated_cart, hl, lookupKey_erase]

/-- C6 witness: incrementing a line for a product the user owns evicts it. -/
theorem cart_ops_owned_fail_or_evict_witness :
    (cart_increment ("t") (some 42) 1 [exOwned]
        { cart := [(("1"), some 3)], cart_created_at := some ("x") }).2.isFailure = true ∨
      lookupKey (cart_increment ("t") (some 42) 1 [exOwned]
        { cart := [(("1"), some 3)], cart_created_at := some ("x") }).1.cart
        (toString 1) = none :=
  (cart_ops_owned_fail_or_evict exNoParse 0 ("t") 42 1 none [exOwned]
    { cart := [(("1"), some 3)], cart_created_at := some ("x") }
    exOwned rfl rfl).2.2.1

/-- C6 counterexample: `cart_decrement` performs no ownership check, so the
claim is false for it — user 42 decrements their own product's line from 3 to
2; the operation succeeds and the line for the owned product stays in the
cart. -/
theorem cart_decrement_keeps_owned_line :
    cart_decrement ("t") (some 42) 1 [exOwned]
        { cart := [(("1"), some 3)], cart_created_at := some ("x") } =
      ({ cart := [(("1"), some 2)], cart_created_at := some ("x") }, .ok false) ∧
    CartOpResult.isFailure (.ok false) = false ∧
    lookupKey [(("1"), some 2)] ("1") = some (some 2) := by
  refine ⟨rfl, rfl, rfl⟩

/-! ## Claim C9: `cart_update` semantics -/

/-- C9 (amended). For `cart_update`: an absent line is a no-op success;
`qty ≤ 0` removes the line (before the product is even fetched); and when the
line's product is active and not owned by the acting user, a requested `qty`
above positive live stock is clamped to exactly the live stock with a warning.
(The not-owned and active conditions are forced by the counterexample: the
ownership eviction and the 404 happen before the clamp.) -/
theorem cart_update_semantics (nowIso : String) (user : Option Nat)
    (product_id : Nat) (qty : Int) (catalog : Catalog) (sess : Session) :
    (lookupKey sess.cart (toString product_id) = none →
      cart_update nowIso user product_id (some qty) catalog sess =
        (touchCreated nowIso sess, .ok false)) ∧
    (lookupKey sess.cart (toString product_id) ≠ none → qty ≤ 0 →
      cart_update nowIso user product_id (some qty) catalog sess =
        ({ touchCreated nowIso sess with
            cart := eraseEntry sess.cart (toString product_id) }, .ok false)) ∧
    (∀ p, lookupKey sess.cart (toString product_id) ≠ none → 0 < qty →
      findActive catalog (product_id : Int) = some p → userOwns user p = false →
      0 < p.stock → p.stock < qty →
      lookupKey (cart_update nowIso user product_id (some qty) catalog sess).1.cart
          (toString product_id) = some (some p.stock) ∧
        (cart_update nowIso user product_id (some qty) catalog sess).2 = .ok true) := by
  refine ⟨?_, ?_, ?_⟩
  · intro hl
    simp [cart_update, touchCreated_cart, hl]
  · intro hl hq
    rcases ho : lookupKey sess.cart (toString product_id) with _ | v
    · exact absurd ho hl
    · simp only [cart_update, touchCreated_cart, ho, Option.isNone_some,
        Bool.false_eq_true, if_false, Option.getD_some, hq, if_true]
  · intro p hl hq hp hnotown hstock hexceed
    rcases ho : lookupKey sess.cart (toString product_id) with _ | v
    · exact absurd ho hl
    · have h1 : ¬ qty ≤ 0 := not_le.mpr hq
      have h2 : qty > p.stock := hexceed
      have h3 : ¬ p.stock ≤ 0 := not_le.mpr hstock
      simp only [cart_update, touchCreated_cart, ho, Option.isNone_some,
        Bool.false_eq_true, if_false, Option.getD_some, h1, if_false, hp,
        hnotown, gt_iff_lt, hexceed, if_true, h3]
      exact ⟨lookupKey_set _ _ _, trivial⟩

/-- C9 witness: the spec scenario — line at quantity 2, stock 10, update to
20 clamps to 10 with a warning. -/
theorem cart_update_semantics_witness :
    lookupKey (cart_update ("t") (some 9) 1 (some 20) [exPlain]
        { cart := [(("1"), some 2)], cart_created_at := some ("x") }).1.cart
        (toString 1) = some (some 10) ∧
      (cart_update ("t") (some 9) 1 (some 20) [exPlain]
        { cart := [(("1"), some 2)], cart_created_at := some ("x") }).2 = .ok true :=
  (cart_update_semantics ("t") (some 9) 1 20 [exPlain]
    { cart := [(("1"), some 2)], cart_created_at := some ("x") }).2.2 exPlain
    (by decide) (by decide) rfl rfl (by decide) (by decide)

/-- C9 counterexample: the claim as stated fails when the acting user owns the
product — with a line at quantity 2 and stock 3 > 0, `update` to quantity 20
removes the line (self-purchase eviction) instead of setting it to the live
stock. -/
theorem cart_update_owned_not_clamped :
    cart_update ("t") (some 42) 1 (some 20) [exOwned]
        { cart := [(("1"), some 2)], cart_created_at := some ("x") } =
      ({ cart := [], cart_created_at := some ("x") }, .selfPurchase) ∧
    lookupKey (cart_update ("t") (some 42) 1 (some 20) [exOwned]
        { cart := [(("1"), some 2)], cart_created_at := some ("x") }).1.cart
        ("1") ≠ some (some 3) := by
  refine ⟨rfl, by decide⟩

/-! ## Shared lemmas about the checkout pipeline -/

/-- The cleaned cart a `checkout` request computes from the incoming state. -/
def cleanedOf (catalog : Catalog) (nowIso : String) (s : Session) : Cart :=
  (validate_and_clean_session catalog nowIso s).2.1

/-- The id list `ids = [int(pid) for pid in cleaned_cart.keys()]`. -/
def checkoutIds (cleaned : Cart) : List Int :=
  (cleaned.map Prod.fst).filterMap pyInt?

theorem errStep_foldl (user : Nat) (pm : Int → Option Product) :
    ∀ (l : Cart) (acc : List VError),
      l.foldl (errStep user pm) acc =
        acc ++ l.filterMap (checkout_line_error user pm) := by
  intro l
  induction l with
  | nil => intro acc; simp
  | cons e t ih =>
    intro acc
    rcases hf : checkout_line_error user pm e with _ | v <;>
      simp [List.foldl_cons, errStep, hf, List.filterMap_cons, ih]

theorem checkout_errors_eq_filterMap (user : Nat) (pm : Int → Option Product)
    (cleaned : Cart) :
    checkout_errors user pm cleaned =
      cleaned.filterMap (checkout_line_error user pm) := by
  unfold checkout_errors
  simpa using errStep_foldl user pm cleaned []

theorem filterMap_ne_nil_of_all_some {α β : Type} (f : α → Option β)
    (l : List α) (hne : l ≠ []) (hall : ∀ e ∈ l, f e ≠ none) :
    l.filterMap f ≠ [] := by
  cases l with
  | nil => exact absurd rfl hne
  | cons e t =>
    rcases ho : f e with _ | v
    · exact absurd ho (hall e (by simp))
    · simp [List.filterMap_cons, ho]

/-! ## Claim C1: an aborted checkout writes no stock and leaves the
sanitized cart -/

/-- C1 (amended). A checkout attempt that aborts on validation violations
changes no product stock and creates no order, and the session cart it leaves
behind is exactly the cart left by the sanitation pass that precedes
validation — byte-identical to the pre-attempt cart whenever sanitation
dropped nothing, but sanitation may have dropped or clamped invalid lines
first (see the counterexample for the claim as stated). -/
theorem checkout_abort_preserves (parseIso : String → Option ℚ) (now : ℚ)
    (nowIso : String) (user : Nat) (isPost : Bool) (st st' : St)
    (errs : List VError)
    (h : checkout parseIso now nowIso user isPost st = (st', .aborted errs)) :
    st'.catalog = st.catalog ∧ st'.orders = st.orders ∧
    st'.session.cart = cleanSessionCart st.catalog st.session.cart := by
  unfold checkout at h
  split at h
  · exact absurd h (by simp)
  · dsimp only at h
    split at h
    · exact absurd h (by simp)
    · split at h
      · split at h
        · exact absurd h (by simp)
        · injection h with h1 h2
          refine ⟨?_, ?_, ?_⟩
          · rw [← h1]
          · rw [← h1]
          · rw [← h1]
            show (validate_and_clean_session st.catalog nowIso st.session).1.cart =
              cleanSessionCart st.catalog st.session.cart
            unfold validate_and_clean_session
            dsimp only
            rw [touchCreated_cart]
      · exact absurd h (by simp)

/-- C1 counterexample (claim as stated): a cart holding a line for an
inactive product plus a line for the user's own product. Sanitation drops the
inactive line (modifying the session cart), then validation aborts on the
self-purchase violation — so the attempt ends Aborted yet the cart mapping
after the attempt differs from its pre-attempt value. -/
theorem checkout_abort_cart_modified :
    (checkout exNoParse 0 ("t") 42 true exStAbort).2 =
      .aborted [.selfPurchase ("A")] ∧
    (checkout exNoParse 0 ("t") 42 true exStAbort).1.session.cart =
      [(("1"), some 2)] ∧
    exStAbort.session.cart = [(("1"), some 2), (("2"), some 1)] ∧
    [(("1"), some 2)] ≠ [(("1"), some 2), (("2"), some (1 : Int))] := by
  refine ⟨rfl, rfl, rfl, by decide⟩

/-- C1 witness (for the amended theorem): the aborted attempt on `exStAbort`
leaves the product table and order table unchanged and the session cart equal
to the sanitized pre-attempt cart. -/
theorem checkout_abort_preserves_witness :
    (checkout exNoParse 0 ("t") 42 true exStAbort).1.catalog = exStAbort.catalog ∧
    (checkout exNoParse 0 ("t") 42 true exStAbort).1.orders = exStAbort.orders ∧
    (checkout exNoParse 0 ("t") 42 true exStAbort).1.session.cart =
      cleanSessionCart exStAbort.catalog exStAbort.session.cart :=
  checkout_abort_preserves exNoParse 0 ("t") 42 true exStAbort
    ((checkout exNoParse 0 ("t") 42 true exStAbort).1)
    [.selfPurchase ("A")] rfl

/-! ## Claim C5: validation visits every line and reports all violations -/

/-- C5. When checkout aborts, the reported error list is exactly the per-line
violations of the whole cleaned cart collected in one pass (one error per
offending line, in cart order, with no early exit): it equals the `filterMap`
of the per-line check over all lines, and in particular every line whose
check fails contributes its violation to the reported list. -/
theorem checkout_abort_reports_all (parseIso : String → Option ℚ) (now : ℚ)
    (nowIso : String) (user : Nat) (isPost : Bool) (st st' : St)
    (errs : List VError)
    (h : checkout parseIso now nowIso user isPost st = (st', .aborted errs)) :
    errs = (cleanedOf st.catalog nowIso st.session).filterMap
        (checkout_line_error user (productMapIn st.catalog
          (checkoutIds (cleanedOf st.catalog nowIso st.session)))) ∧
    ∀ e ∈ cleanedOf st.catalog nowIso st.session, ∀ v,
      checkout_line_error user (productMapIn st.catalog
        (checkoutIds (cleanedOf st.catalog nowIso st.session))) e = some v →
      v ∈ errs := by
  unfold checkout at h
  split at h
  · exact absurd h (by simp)
  · dsimp only at h
    split at h
    · exact absurd h (by simp)
    · split at h
      · split at h
        · exact absurd h (by simp)
        · injection h with h1 h2
          injection h2 with h3
          unfold cleanedOf checkoutIds
          rw [← h3, checkout_errors_eq_filterMap]
          refine ⟨rfl, ?_⟩
          intro e he v hv
          exact List.mem_filterMap.mpr ⟨e, he, hv⟩
      · exact absurd h (by simp)

/-- C5 witness: a two-line cart with two distinct self-purchase violations —
validation does not stop at the first line; both are reported, in cart
order. (Conclusion obtained through the C5 theorem at this concrete run.) -/
theorem checkout_abort_reports_all_witness :
    (checkout exNoParse 0 ("t") 42 true
          { catalog := [exOwned,
              { id := 4, name := "D", price := 3, stock := 5, is_active := true,
                owner := 42 }],
            session := { cart := [(("1"), some 1), (("4"), some 1)],
                         cart_created_at := none },
            orders := [] }).2 =
        .aborted [.selfPurchase ("A"), .selfPurchase ("D")] ∧
      VError.selfPurchase ("D") ∈ [VError.selfPurchase ("A"), VError.selfPurchase ("D")] := by
  refine ⟨rfl, ?_⟩
  have h := checkout_abort_reports_all exNoParse 0 ("t") 42 true
    { catalog := [exOwned,
        { id := 4, name := "D", price := 3, stock := 5, is_active := true,
          owner := 42 }],
      session := { cart := [(("1"), some 1), (("4"), some 1)],
                   cart_created_at := none },
      orders := [] }
    ((checkout exNoParse 0 ("t") 42 true
      { catalog := [exOwned,
          { id := 4, name := "D", price := 3, stock := 5, is_active := true,
            owner := 42 }],
        session := { cart := [(("1"), some 1), (("4"), some 1)],
                     cart_created_at := none },
        orders := [] }).1)
    [.selfPurchase ("A"), .selfPurchase ("D")] rfl
  exact h.2 (("4"), some 1) (by decide) (.selfPurchase ("D")) (by decide)

/-! ## Claim C4: empty or fully-invalid carts never create an order -/

/-- C4. If the cart is empty after sanitation, or every line of the sanitized
cart fails checkout validation, submitting checkout leaves the order table
unchanged: no order row is created. -/
theorem checkout_invalid_creates_no_order (parseIso : String → Option ℚ)
    (now : ℚ) (nowIso : String) (user : Nat) (isPost : Bool) (st : St)
    (h : cleanedOf st.catalog nowIso st.session = [] ∨
      ∀ e ∈ cleanedOf st.catalog nowIso st.session,
        checkout_line_error user (productMapIn st.catalog
          (checkoutIds (cleanedOf st.catalog nowIso st.session))) e ≠ none) :
    (checkout parseIso now nowIso user isPost st).1.orders = st.orders ∧
    ∀ ord, (checkout parseIso now nowIso user isPost st).2 ≠ .committed ord := by
  unfold cleanedOf checkoutIds at h
  unfold checkout
  split
  · exact ⟨rfl, by intro ord; simp⟩
  · dsimp only
    split
    · exact ⟨rfl, by intro ord; simp⟩
    · rename_i hne
      split
      · split
        · rename_i hempty
          exfalso
          rw [Bool.not_eq_true, List.isEmpty_eq_false_iff_exists_mem] at hne
          rcases hne with ⟨e0, he0⟩
          have hnil : (validate_and_clean_session st.catalog nowIso st.session).2.1 ≠ [] :=
            List.ne_nil_of_mem he0
          rcases h with h | h
          · exact hnil h
          · have := filterMap_ne_nil_of_all_some _ _ hnil h
            rw [← checkout_errors_eq_filterMap] at this
            rw [List.isEmpty_iff] at hempty
            exact this hempty
        · exact ⟨rfl, by intro ord; simp⟩
      · exact ⟨rfl, by intro ord; simp⟩

/-- C4 witness: a nonempty sanitized cart whose single line is a
self-purchase violation creates no order. -/
theorem checkout_invalid_creates_no_order_witness :
    (checkout exNoParse 0 ("t") 42 true exStAbort).1.orders = [] ∧
    ∀ ord, (checkout exNoParse 0 ("t") 42 true exStAbort).2 ≠ .committed ord :=
  checkout_invalid_creates_no_order exNoParse 0 ("t") 42 true exStAbort
    (Or.inr (by decide))

/-! ## Claim C3: the committed total is the rounded sum of rounded lines -/

/-- The rounded line total `round_currency(price_at_purchase * quantity)` of
a persisted order line. -/
def lineRounded (it : OrderItemRec) : ℚ :=
  quantize_currency (it.price_at_purchase * (it.quantity : ℚ))

theorem commit_fold_items_total (ids : List Int) :
    ∀ (l : Cart) (acc : List OrderItemRec × ℚ × Catalog),
      ∃ ni, (l.foldl (commitStep ids) acc).1 = acc.1 ++ ni ∧
        (l.foldl (commitStep ids) acc).2.1 =
          acc.2.1 + (ni.map lineRounded).sum := by
  intro l
  induction l with
  | nil => intro acc; exact ⟨[], by simp, by simp⟩
  | cons e t ih =>
    intro acc
    obtain ⟨ni, h1, h2⟩ := ih (commitStep ids acc e)
    refine ⟨{ productId := (pyInt? e.1).getD 0, quantity := e.2.getD 0,
              price_at_purchase :=
                ((productMapIn acc.2.2 ids ((pyInt? e.1).getD 0)).getD
                  dummyProduct).price,
              status := ("pending") } :: ni, ?_, ?_⟩
    · rw [List.foldl_cons, h1]
      show (commitStep ids acc e).1 ++ ni = acc.1 ++ _ :: ni
      unfold commitStep
      simp
    · rw [List.foldl_cons, h2]
      show (commitStep ids acc e).2.1 + (ni.map lineRounded).sum =
        acc.2.1 + _
      unfold commitStep
      simp [lineRounded, add_assoc]

theorem commit_lines_total (user : Nat) (ids : List Int) (catalog : Catalog)
    (cleaned : Cart) :
    (commit_lines user ids catalog cleaned).1.total_amount =
      quantize_currency
        (((commit_lines user ids catalog cleaned).1.items).map lineRounded).sum := by
  unfold commit_lines
  dsimp only
  obtain ⟨ni, h1, h2⟩ := commit_fold_items_total ids cleaned ([], (0, catalog))
  rw [h1, h2]
  simp

/-- C3. For every checkout that commits, the persisted `total_amount` equals
`round_currency` applied to the sum over the order's lines of
`round_currency(price_at_purchase * quantity)`: each line is rounded to two
decimal places before summation and the final sum is rounded again. -/
theorem checkout_commit_total (parseIso : String → Option ℚ) (now : ℚ)
    (nowIso : String) (user : Nat) (isPost : Bool) (st st' : St)
    (ord : OrderRec)
    (h : checkout parseIso now nowIso user isPost st = (st', .committed ord)) :
    ord.total_amount = quantize_currency ((ord.items.map lineRounded).sum) := by
  unfold checkout at h
  split at h
  · exact absurd h (by simp)
  · dsimp only at h
    split at h
    · exact absurd h (by simp)
    · split at h
      · split at h
        · injection h with h1 h2
          injection h2 with h3
          rw [← h3]
          exact commit_lines_total _ _ _ _
        · exact absurd h (by simp)
      · exact absurd h (by simp)

/-- A state from which checkout commits: one line, quantity 3, on an active
product with stock 10 owned by someone else. -/
def exStCommit : St :=
  { catalog := [exPlain],
    session := { cart := [(("1"), some 3)], cart_created_at := none },
    orders := [] }

/-- The order the checkout of `exStCommit` commits (written as the program
expression itself; its `total_amount` evaluates to 15.00). -/
def exCommitOrder : OrderRec :=
  (commit_lines 42 (checkoutIds (cleanedOf exStCommit.catalog ("t") exStCommit.session))
    exStCommit.catalog (cleanedOf exStCommit.catalog ("t") exStCommit.session)).1

/-- C3 witness: the committed order of the `exStCommit` run satisfies the
total-amount invariant. -/
theorem checkout_commit_total_witness :
    exCommitOrder.total_amount =
      quantize_currency ((exCommitOrder.items.map lineRounded).sum) :=
  checkout_commit_total exNoParse 0 ("t") 42 true exStCommit
    (checkout exNoParse 0 ("t") 42 true exStCommit).1 exCommitOrder rfl

/-! ## Claim C7: sanitation is idempotent on wire-format carts -/

/-- An entry the cleaning loop keeps as-is: integer quantity, parseable key
whose product is in the prefetched map, positive quantity within stock. -/
def GoodEntry (pm : Int → Option Product) (e : String × Option Int) : Prop :=
  ∃ pid q p, e.2 = some q ∧ pyInt? e.1 = some pid ∧ pm pid = some p ∧
    0 < q ∧ q ≤ p.stock

theorem cleanStep_fst (pm : Int → Option Product) (acc : Cart × List String)
    (e : String × Option Int) :
    (cleanStep pm acc e).1 = acc.1 ∨
      ∃ v, (cleanStep pm acc e).1 = acc.1 ++ [(e.1, some v)] ∧
        GoodEntry pm (e.1, some v) := by
  rcases h2 : e.2 with _ | qty
  · refine Or.inl ?_
    simp [cleanStep, h2]
  · rcases hp : pyInt? e.1 with _ | pid
    · refine Or.inl ?_
      simp [cleanStep, h2, hp]
    · rcases hpm : pm pid with _ | product
      · refine Or.inl ?_
        simp [cleanStep, h2, hp, hpm]
      · by_cases hq : qty ≤ 0
        · refine Or.inl ?_
          simp [cleanStep, h2, hp, hpm, hq]
        · by_cases hgt : qty > product.stock
          · by_cases hpos : product.stock > 0
            · refine Or.inr ⟨product.stock, ?_,
                pid, product.stock, product, rfl, hp, hpm, hpos, le_refl _⟩
              simp [cleanStep, h2, hp, hpm, hq, hgt, hpos]
            · refine Or.inl ?_
              simp [cleanStep, h2, hp, hpm, hq, hgt, hpos]
          · refine Or.inr ⟨qty, ?_, pid, qty, product, rfl, hp, hpm,
              not_le.mp hq, not_lt.mp hgt⟩
            simp [cleanStep, h2, hp, hpm, hq, hgt]

theorem clean_fold_out (pm : Int → Option Product) :
    ∀ (l : Cart) (acc : Cart × List String),
      ∀ e ∈ (l.foldl (cleanStep pm) acc).1,
        e ∈ acc.1 ∨ ((∃ v, (e.1, v) ∈ l) ∧ GoodEntry pm e) := by
  intro l
  induction l with
  | nil => intro acc e he; exact Or.inl he
  | cons e0 t ih =>
    intro acc e he
    rw [List.foldl_cons] at he
    rcases ih (cleanStep pm acc e0) e he with hmem | ⟨⟨v, hv⟩, hg⟩
    · rcases cleanStep_fst pm acc e0 with hstep | ⟨w, hstep, hgood⟩
      · rw [hstep] at hmem
        exact Or.inl hmem
      · rw [hstep] at hmem
        rcases List.mem_append.mp hmem with hmem | hmem
        · exact Or.inl hmem
        · have heq := List.mem_singleton.mp hmem
          subst heq
          refine Or.inr ⟨⟨e0.2, ?_⟩, hgood⟩
          show (e0.1, e0.2) ∈ e0 :: t
          rw [Prod.mk.eta]
          exact List.mem_cons_self _ _
    · exact Or.inr ⟨⟨v, List.mem_cons_of_mem _ hv⟩, hg⟩

theorem clean_fold_keep (pm : Int → Option Product) :
    ∀ (l : Cart) (acc : Cart × List String),
      (∀ e ∈ l, GoodEntry pm e) →
      l.foldl (cleanStep pm) acc = (acc.1 ++ l, acc.2) := by
  intro l
  induction l with
  | nil => intro acc _; simp
  | cons e0 t ih =>
    intro acc hall
    obtain ⟨pid, q, p, h2, hp, hpm, hq, hle⟩ := hall e0 (List.mem_cons_self _ _)
    have hstep : cleanStep pm acc e0 = (acc.1 ++ [e0], acc.2) := by
      simp only [cleanStep, h2, hp, hpm]
      rw [if_neg (not_le.mpr hq), if_neg (not_lt.mpr hle)]
      rw [← h2, Prod.mk.eta]
    rw [List.foldl_cons, hstep,
      ih _ (fun e he => hall e (List.mem_cons_of_mem _ he))]
    simp

theorem pyInt?_digit (s : String) (n : Nat) (h : pyStrNat? s = some n) :
    pyInt? s = some (Int.ofNat n) := by
  unfold pyInt?
  rw [h]

theorem mem_cartIds_of (cart : Cart) (e : String × Option Int) (he : e ∈ cart)
    (n : Nat) (h : pyStrNat? e.1 = some n) : Int.ofNat n ∈ cartIds cart := by
  unfold cartIds
  exact List.mem_filterMap.mpr ⟨e.1, List.mem_map.mpr ⟨e, he, rfl⟩, by rw [h]; rfl⟩

theorem productMapIn_some {catalog : Catalog} {ids : List Int} {pid : Int}
    {p : Product} (h : productMapIn catalog ids pid = some p) :
    ids.contains pid = true ∧ findActive catalog pid = some p := by
  unfold productMapIn at h
  split at h
  · exact ⟨by assumption, h⟩
  · exact absurd h (by simp)

theorem productMapIn_mk {catalog : Catalog} {ids : List Int} {pid : Int}
    {p : Product} (hc : ids.contains pid = true)
    (hf : findActive catalog pid = some p) :
    productMapIn catalog ids pid = some p := by
  unfold productMapIn
  rw [if_pos hc, hf]

/-- C7. On a cart whose keys are decimal digit strings (the documented wire
format: `product_id keys are ALWAYS strings` holding decimal ids), running
`_validate_and_clean_cart` on its own cleaned output returns that output
unchanged, with nothing removed: sanitation is idempotent for an unchanged
catalog. -/
theorem validate_and_clean_idempotent (catalog : Catalog) (cart : Cart)
    (hkeys : ∀ e ∈ cart, (pyStrNat? e.1).isSome = true) :
    validate_and_clean_core catalog ((validate_and_clean_core catalog cart).1) =
      ((validate_and_clean_core catalog cart).1, []) := by
  have hgood : ∀ e ∈ (validate_and_clean_core catalog cart).1,
      (∃ v, (e.1, v) ∈ cart) ∧
        GoodEntry (productMapIn catalog (cartIds cart)) e := by
    intro e he
    unfold validate_and_clean_core at he
    by_cases hemp : cart.isEmpty = true
    · rw [if_pos hemp] at he
      rw [List.isEmpty_iff] at hemp
      rw [hemp] at he
      exact absurd he (List.not_mem_nil _)
    · rw [if_neg hemp] at he
      dsimp only at he
      by_cases hids : (cartIds cart).isEmpty = true
      · rw [if_pos hids] at he
        exact absurd he (List.not_mem_nil _)
      · rw [if_neg hids] at he
        exact (clean_fold_out _ cart ([], []) e he).resolve_left
          (List.not_mem_nil _)
  set c1 := (validate_and_clean_core catalog cart).1 with hc1
  by_cases h1 : c1.isEmpty = true
  · unfold validate_and_clean_core
    rw [if_pos h1]
  · unfold validate_and_clean_core
    rw [if_neg h1]
    dsimp only
    have hne : c1 ≠ [] := by
      intro hnil
      rw [hnil] at h1
      exact h1 rfl
    obtain ⟨e0, he0⟩ := List.exists_mem_of_ne_nil c1 hne
    have hd0 : (pyStrNat? e0.1).isSome = true := by
      obtain ⟨⟨v, hv⟩, _⟩ := hgood e0 he0
      exact hkeys (e0.1, v) hv
    have hidsne : ¬ (cartIds c1).isEmpty = true := by
      rcases ho : pyStrNat? e0.1 with _ | n
      · rw [ho] at hd0
        exact absurd hd0 (by simp)
      · have hm := mem_cartIds_of c1 e0 he0 n ho
        intro hempty
        rw [List.isEmpty_iff] at hempty
        rw [hempty] at hm
        exact absurd hm (List.not_mem_nil _)
    rw [if_neg hidsne]
    rw [clean_fold_keep _ c1 ([], []) ?_]
    · simp
    · intro e he
      obtain ⟨⟨v, hv⟩, pid, q, p, h2, hp, hpm, hq, hle⟩ := hgood e he
      obtain ⟨hcont, hfind⟩ := productMapIn_some hpm
      have hkey : (pyStrNat? e.1).isSome = true := hkeys (e.1, v) hv
      rcases ho : pyStrNat? e.1 with _ | n
      · rw [ho] at hkey
        exact absurd hkey (by simp)
      · have hpid : pid = Int.ofNat n := by
          have hpd := pyInt?_digit e.1 n ho
          rw [hpd] at hp
          exact (Option.some.inj hp).symm
        refine ⟨pid, q, p, h2, hp, ?_, hq, hle⟩
        refine productMapIn_mk ?_ hfind
        rw [hpid]
        have hm := mem_cartIds_of c1 e he n ho
        simpa using hm

/-- C7 witness: a cart mixing an over-stock line, an inactive-product line, a
missing-product line and a junk quantity — one sanitation pass fixes it, a
second pass is the identity on the result. -/
theorem validate_and_clean_idempotent_witness :
    validate_and_clean_core [exOwned, exInactive]
        ((validate_and_clean_core [exOwned, exInactive]
          [(("1"), some 99), (("2"), some 1), (("5"), some 3),
            (("3"), none)]).1) =
      ((validate_and_clean_core [exOwned, exInactive]
        [(("1"), some 99), (("2"), some 1), (("5"), some 3),
          (("3"), none)]).1, []) :=
  validate_and_clean_idempotent [exOwned, exInactive]
    [(("1"), some 99), (("2"), some 1), (("5"), some 3), (("3"), none)]
    (by decide)

/-! ## Claim C2: committed checkouts decrement stock exactly once per line -/

theorem find?_map_of_pred {α : Type} (f : α → α) (pred : α → Bool)
    (hf : ∀ x, pred (f x) = pred x) :
    ∀ l : List α, (l.map f).find? pred = (l.find? pred).map f := by
  intro l
  induction l with
  | nil => rfl
  | cons a t ih =>
    cases h : pred a with
    | false =>
      have h2 : pred (f a) = false := by rw [hf a, h]
      simp [List.find?, h, h2, ih]
    | true =>
      have h2 : pred (f a) = true := by rw [hf a, h]
      simp [List.find?, h, h2]

theorem findActive_decStock (c : Catalog) (i q j : Int) :
    findActive (decStock c i q) j =
      (findActive c j).map
        (fun p => if (p.id : Int) == i then { p with stock := p.stock - q }
          else p) := by
  unfold findActive decStock
  apply find?_map_of_pred
  intro p
  by_cases h : ((p.id : Int) == i) = true <;> simp [h]

theorem stockAct_decStock_ne (c : Catalog) (i q j : Int) (h : i ≠ j) :
    stockAct (decStock c i q) j = stockAct c j := by
  unfold stockAct
  rw [findActive_decStock]
  rcases hf : findActive c j with _ | p
  · rfl
  · have hfs := List.find?_some hf
    rw [Bool.and_eq_true] at hfs
    have hpid : (p.id : Int) = j := beq_iff_eq.mp hfs.1
    have hne2 : (p.id : Int) ≠ i := by
      rw [hpid]
      exact fun hh => h hh.symm
    simp [hne2]

theorem stockAct_decStock_self (c : Catalog) (j q : Int) :
    stockAct (decStock c j q) j = (stockAct c j).map (fun s => s - q) := by
  unfold stockAct
  rw [findActive_decStock]
  rcases hf : findActive c j with _ | p
  · rfl
  · have hfs := List.find?_some hf
    rw [Bool.and_eq_true] at hfs
    have hpid : (p.id : Int) = j := beq_iff_eq.mp hfs.1
    simp [hpid]

theorem commit_fold_stock_skip (ids : List Int) :
    ∀ (l : Cart) (acc : List OrderItemRec × ℚ × Catalog) (j : Int),
      (∀ e ∈ l, (pyInt? e.1).getD 0 ≠ j) →
      stockAct ((l.foldl (commitStep ids) acc).2.2) j = stockAct acc.2.2 j := by
  intro l
  induction l with
  | nil => intro acc j _; rfl
  | cons e t ih =>
    intro acc j hall
    rw [List.foldl_cons,
      ih (commitStep ids acc e) j (fun x hx => hall x (List.mem_cons_of_mem _ hx))]
    show stockAct (decStock acc.2.2 ((pyInt? e.1).getD 0) (e.2.getD 0)) j = _
    exact stockAct_decStock_ne _ _ _ _ (hall e (List.mem_cons_self _ _))

theorem commit_fold_stock (ids : List Int) :
    ∀ (l : Cart) (acc : List OrderItemRec × ℚ × Catalog),
      (l.map (fun e => (pyInt? e.1).getD 0)).Nodup →
      ∀ e ∈ l,
        stockAct ((l.foldl (commitStep ids) acc).2.2) ((pyInt? e.1).getD 0) =
          (stockAct acc.2.2 ((pyInt? e.1).getD 0)).map
            (fun s => s - e.2.getD 0) := by
  intro l
  induction l with
  | nil => intro acc _ e he; exact absurd he (List.not_mem_nil _)
  | cons e0 t ih =>
    intro acc hnd e he
    rw [List.map_cons, List.nodup_cons] at hnd
    obtain ⟨hnotin, hndt⟩ := hnd
    rw [List.foldl_cons]
    rcases List.mem_cons.mp he with heq | hmem
    · subst heq
      rw [commit_fold_stock_skip ids t (commitStep ids acc e) _
        (fun x hx hcontra => hnotin (List.mem_map.mpr ⟨x, hx, hcontra⟩))]
      show stockAct (decStock acc.2.2 ((pyInt? e.1).getD 0) (e.2.getD 0)) _ = _
      exact stockAct_decStock_self _ _ _
    · rw [ih (commitStep ids acc e0) hndt e hmem]
      congr 1
      show stockAct (decStock acc.2.2 ((pyInt? e0.1).getD 0) (e0.2.getD 0)) _ = _
      apply stockAct_decStock_ne
      intro hcontra
      have hin : (pyInt? e.1).getD 0 ∈
          t.map (fun x => (pyInt? x.1).getD 0) := List.mem_map.mpr ⟨e, hmem, rfl⟩
      rw [← hcontra] at hin
      exact hnotin hin

theorem commit_fold_items_shape (ids : List Int) :
    ∀ (l : Cart) (acc : List OrderItemRec × ℚ × Catalog),
      ∀ it ∈ (l.foldl (commitStep ids) acc).1, it ∈ acc.1 ∨
        ∃ e ∈ l, it.productId = (pyInt? e.1).getD 0 ∧
          it.quantity = e.2.getD 0 := by
  intro l
  induction l with
  | nil => intro acc it hit; exact Or.inl hit
  | cons e0 t ih =>
    intro acc it hit
    rw [List.foldl_cons] at hit
    rcases ih (commitStep ids acc e0) it hit with hmem | ⟨e, he, h1, h2⟩
    · have hmem2 : it ∈ acc.1 ++
          [{ productId := (pyInt? e0.1).getD 0, quantity := e0.2.getD 0,
             price_at_purchase :=
               ((productMapIn acc.2.2 ids ((pyInt? e0.1).getD 0)).getD
                 dummyProduct).price,
             status := ("pending") }] := hmem
      rcases List.mem_append.mp hmem2 with hin | hin
      · exact Or.inl hin
      · have heq := List.mem_singleton.mp hin
        subst heq
        exact Or.inr ⟨e0, List.mem_cons_self _ _, rfl, rfl⟩
    · exact Or.inr ⟨e, List.mem_cons_of_mem _ he, h1, h2⟩

theorem line_ok {user : Nat} {pm : Int → Option Product}
    {e : String × Option Int} (h : checkout_line_error user pm e = none) :
    ∃ qty pid product, e.2 = some qty ∧ pyInt? e.1 = some pid ∧ 0 < qty ∧
      pm pid = some product ∧ qty ≤ product.stock := by
  rcases h2 : e.2 with _ | qty
  · simp [checkout_line_error, h2] at h
  · rcases hp : pyInt? e.1 with _ | pid
    · simp [checkout_line_error, h2, hp] at h
    · by_cases hq : qty ≤ 0
      · simp [checkout_line_error, h2, hp, hq] at h
      · rcases hpm : pm pid with _ | product
        · simp [checkout_line_error, h2, hp, hq, hpm] at h
        · by_cases hown : (product.owner == user) = true
          · simp [checkout_line_error, h2, hp, hq, hpm, hown] at h
          · by_cases hs : product.stock ≤ 0
            · simp [checkout_line_error, h2, hp, hq, hpm, hown, hs] at h
            · by_cases hlt : product.stock < qty
              · simp [checkout_line_error, h2, hp, hq, hpm, hown, hs, hlt] at h
              · exact ⟨qty, pid, product, rfl, rfl, not_le.mp hq, hpm,
                  not_lt.mp hlt⟩

theorem clean_fold_keys_sublist (pm : Int → Option Product) :
    ∀ (l : Cart) (acc : Cart × List String),
      ∃ s, ((l.foldl (cleanStep pm) acc).1).map Prod.fst =
          acc.1.map Prod.fst ++ s ∧ s.Sublist (l.map Prod.fst) := by
  intro l
  induction l with
  | nil => intro acc; exact ⟨[], by simp, by simp⟩
  | cons e0 t ih =>
    intro acc
    obtain ⟨s, hs, hsub⟩ := ih (cleanStep pm acc e0)
    rcases cleanStep_fst pm acc e0 with hstep | ⟨w, hstep, _⟩
    · refine ⟨s, ?_, ?_⟩
      · rw [List.foldl_cons, hs, hstep]
      · exact hsub.trans (List.sublist_cons_self _ _)
    · refine ⟨e0.1 :: s, ?_, ?_⟩
      · rw [List.foldl_cons, hs, hstep]
        simp
      · exact hsub.cons₂ e0.1

theorem clean_core_keys_sublist (catalog : Catalog) (cart : Cart) :
    ((validate_and_clean_core catalog cart).1.map Prod.fst).Sublist
      (cart.map Prod.fst) := by
  unfold validate_and_clean_core
  by_cases hemp : cart.isEmpty = true
  · rw [if_pos hemp]
  · rw [if_neg hemp]
    dsimp only
    by_cases hids : (cartIds cart).isEmpty = true
    · rw [if_pos hids]
      exact List.nil_sublist _
    · rw [if_neg hids]
      obtain ⟨s, hs, hsub⟩ := clean_fold_keys_sublist _ cart ([], [])
      rw [hs]
      simpa using hsub

theorem clean_core_pids_nodup (catalog : Catalog) (cart : Cart)
    (hkeys : ∀ e ∈ cart, (pyStrNat? e.1).isSome = true)
    (hnodup : (cart.map (fun e => pyStrNat? e.1)).Nodup) :
    ((validate_and_clean_core catalog cart).1.map
      (fun e => (pyInt? e.1).getD 0)).Nodup := by
  have hsub := clean_core_keys_sublist catalog cart
  have hdigit : ∀ k ∈ (validate_and_clean_core catalog cart).1.map Prod.fst,
      (pyStrNat? k).isSome = true := by
    intro k hk
    obtain ⟨e, he, rfl⟩ := List.mem_map.mp (hsub.subset hk)
    exact hkeys e he
  have hn1 : (((validate_and_clean_core catalog cart).1.map Prod.fst).map
      pyStrNat?).Nodup := by
    have hcartn : ((cart.map Prod.fst).map pyStrNat?).Nodup := by
      rw [List.map_map]
      exact hnodup
    exact hcartn.sublist (hsub.map pyStrNat?)
  have hmapeq : (validate_and_clean_core catalog cart).1.map
        (fun e => (pyInt? e.1).getD 0) =
      (((validate_and_clean_core catalog cart).1.map Prod.fst).map
        (fun k => (pyStrNat? k).getD 0)).map Int.ofNat := by
    rw [List.map_map, List.map_map]
    apply List.map_congr_left
    intro e he
    have hd := hdigit e.1 (List.mem_map.mpr ⟨e, he, rfl⟩)
    rcases ho : pyStrNat? e.1 with _ | n
    · rw [ho] at hd
      exact absurd hd (by simp)
    · show (pyInt? e.1).getD 0 = Int.ofNat ((pyStrNat? e.1).getD 0)
      rw [pyInt?_digit e.1 n ho, ho]
      rfl
  rw [hmapeq]
  have hbase : (((validate_and_clean_core catalog cart).1.map Prod.fst).map
      (fun k => (pyStrNat? k).getD 0)).Nodup := by
    have heq : ((validate_and_clean_core catalog cart).1.map Prod.fst).map
          pyStrNat? =
        (((validate_and_clean_core catalog cart).1.map Prod.fst).map
          (fun k => (pyStrNat? k).getD 0)).map Option.some := by
      conv_rhs => rw [List.map_map]
      apply List.map_congr_left
      intro k hk
      have hd := hdigit k hk
      rcases ho : pyStrNat? k with _ | n
      · rw [ho] at hd
        exact absurd hd (by simp)
      · show some n = some ((pyStrNat? k).getD 0)
        rw [ho, Option.getD_some]
    rw [heq] at hn1
    exact hn1.of_map
  exact hbase.map (fun a b hab => Int.ofNat.inj hab)

/-- C2. For a committed checkout whose pre-attempt cart is in the documented
wire format — decimal digit-string keys with pairwise-distinct parsed product
ids, the shape every cart mutation maintains since lines are keyed by
`str(product.id)` in a dict — every order line's product had its stock
decremented exactly once, by that line's quantity, and since validation
required `quantity ≤ locked stock` for each line, each such stock remains
non-negative after the commit. -/
theorem checkout_commit_stock (parseIso : String → Option ℚ) (now : ℚ)
    (nowIso : String) (user : Nat) (isPost : Bool) (st st' : St)
    (ord : OrderRec)
    (hkeys : ∀ e ∈ st.session.cart, (pyStrNat? e.1).isSome = true)
    (hnodup : (st.session.cart.map (fun e => pyStrNat? e.1)).Nodup)
    (h : checkout parseIso now nowIso user isPost st = (st', .committed ord)) :
    ∀ it ∈ ord.items, ∃ s0 : Int,
      stockAct st.catalog it.productId = some s0 ∧
      1 ≤ it.quantity ∧ it.quantity ≤ s0 ∧
      stockAct st'.catalog it.productId = some (s0 - it.quantity) ∧
      0 ≤ s0 - it.quantity := by
  unfold checkout at h
  split at h
  · exact absurd h (by simp)
  · dsimp only at h
    split at h
    · exact absurd h (by simp)
    · split at h
      · split at h
        · rename_i herr
          injection h with h1 h2
          injection h2 with h3
          intro it hit
          rw [← h3] at hit
          have hit2 : it ∈ ((validate_and_clean_session st.catalog nowIso
              st.session).2.1.foldl
              (commitStep (((validate_and_clean_session st.catalog nowIso
                st.session).2.1.map Prod.fst).filterMap pyInt?))
              ([], (0, st.catalog))).1 := hit
          rcases commit_fold_items_shape _ _ _ it hit2 with habs |
            ⟨e, he, hpidq, hqty⟩
          · exact absurd habs (List.not_mem_nil _)
          · have herr2 := List.isEmpty_iff.mp herr
            rw [checkout_errors_eq_filterMap] at herr2
            have hnone := List.filterMap_eq_nil_iff.mp herr2
            obtain ⟨qty, pid, product, h2, hp, hqpos, hpm, hle⟩ :=
              line_ok (hnone e he)
            obtain ⟨hcont, hfind⟩ := productMapIn_some hpm
            have hpid' : it.productId = pid := by
              rw [hpidq, hp]
              rfl
            have hqty' : it.quantity = qty := by
              rw [hqty, h2]
              rfl
            have hkeys2 : ∀ e2 ∈ (touchCreated nowIso st.session).cart,
                (pyStrNat? e2.1).isSome = true := by
              rw [touchCreated_cart]
              exact hkeys
            have hnodup2 : ((touchCreated nowIso st.session).cart.map
                (fun e2 => pyStrNat? e2.1)).Nodup := by
              rw [touchCreated_cart]
              exact hnodup
            have hnd2 : ((validate_and_clean_session st.catalog nowIso
                st.session).2.1.map (fun e2 => (pyInt? e2.1).getD 0)).Nodup :=
              clean_core_pids_nodup st.catalog
                (touchCreated nowIso st.session).cart hkeys2 hnodup2
            have hstock := commit_fold_stock
              (((validate_and_clean_session st.catalog nowIso
                st.session).2.1.map Prod.fst).filterMap pyInt?)
              (validate_and_clean_session st.catalog nowIso st.session).2.1
              ([], (0, st.catalog)) hnd2 e he
            rw [hp, h2] at hstock
            simp only [Option.getD_some] at hstock
            have hstock2 : stockAct ((validate_and_clean_session st.catalog
                nowIso st.session).2.1.foldl
                (commitStep (((validate_and_clean_session st.catalog nowIso
                  st.session).2.1.map Prod.fst).filterMap pyInt?))
                ([], (0, st.catalog))).2.2 pid =
                (stockAct st.catalog pid).map (fun s => s - qty) := hstock
            have hs0 : stockAct st.catalog pid = some product.stock := by
              unfold stockAct
              rw [hfind]
              rfl
            have hcat : st'.catalog = ((validate_and_clean_session st.catalog
                nowIso st.session).2.1.foldl
                (commitStep (((validate_and_clean_session st.catalog nowIso
                  st.session).2.1.map Prod.fst).filterMap pyInt?))
                ([], (0, st.catalog))).2.2 := by
              rw [← h1]
              rfl
            refine ⟨product.stock, ?_, ?_, ?_, ?_, ?_⟩
            · rw [hpid']
              exact hs0
            · rw [hqty']
              omega
            · rw [hqty']
              exact hle
            · rw [hpid', hqty', hcat, hstock2, hs0]
              rfl
            · rw [hqty']
              omega
        · exact absurd h (by simp)
      · exact absurd h (by simp)

/-- The single order line the checkout of `exStCommit` persists. -/
def exCommitItem : OrderItemRec :=
  { productId := 1, quantity := 3, price_at_purchase := 5,
    status := ("pending") }

/-- C2 witness: the `exStCommit` run — stock 10, one committed line of
quantity 3 — leaves the product's stock at exactly 10 − 3 = 7 ≥ 0. -/
theorem checkout_commit_stock_witness :
    stockAct exStCommit.catalog exCommitItem.productId = some 10 ∧
    1 ≤ exCommitItem.quantity ∧ exCommitItem.quantity ≤ 10 ∧
    stockAct (checkout exNoParse 0 ("t") 42 true exStCommit).1.catalog
      exCommitItem.productId = some (10 - exCommitItem.quantity) ∧
    0 ≤ 10 - exCommitItem.quantity := by
  obtain ⟨s0, hs0, hq1, hq2, hfin, hnn⟩ :=
    checkout_commit_stock exNoParse 0 ("t") 42 true exStCommit
      ((checkout exNoParse 0 ("t") 42 true exStCommit).1) exCommitOrder
      (by decide) (by decide) rfl exCommitItem (by decide)
  have h10 : stockAct exStCommit.catalog exCommitItem.productId = some 10 := by
    decide
  rw [h10] at hs0
  have hs0' := Option.some.inj hs0
  subst hs0'
  exact ⟨h10, hq1, hq2, hfin, hnn⟩

end ECom
